import Mathlib

/-!
Shallow embedding of the grep-rs pattern compiler and backtracking matcher
(src/main.rs).  Subject and pattern strings are modelled as `List Char`
(the sequence of Unicode codepoints of the Rust `&str`).  Byte-level
operations of the Rust code (`text.len()`, `&text[i..]`) are modelled
through the UTF-8 byte sizes of the characters; slicing at an index that
is out of range or not a character boundary is a Rust panic, modelled as
an `Except.error`.  All Rust panics (implicit indexing panics as well as
explicit `panic!` calls) are modelled as typed error values.
-/

/-- Tokens of the compiled pattern, mirroring `enum Token` in the source.
`Class`/`NegClass` hold the raw class content string, `Alternation` the raw
option substrings, both as codepoint lists. -/
inductive Token where
  | Literal (c : Char)
  | Digit
  | Word
  | Wildcard
  | Class (s : List Char)
  | NegClass (s : List Char)
  | OneOrMore (t : Token)
  | ZeroOrOne (t : Token)
  | Alternation (options : List (List Char))
deriving DecidableEq, Repr

/-- The two compile-time failure families of `tokenize_pattern`:
the `panic!("'+' cannot be the first token")` / `"'?' …"` calls, and the
`panic!("Unhandled escape…")` / `panic!("Escape character at end of pattern")`
calls. -/
inductive CompileError where
  | DanglingQuantifier
  | InvalidEscape
deriving DecidableEq, Repr

/-- Runtime panics reachable inside the matcher:
`strSlice` is a string-slicing panic (`&text[i..]` with `i` out of range or
not a char boundary), `tokenSlice` is `&tokens[1..]` on an empty token slice,
`quantInMatchone` is the explicit `panic!` in `matchone`'s catch-all arm. -/
inductive Panic where
  | strSlice
  | tokenSlice
  | quantInMatchone
deriving DecidableEq, Repr

/-- Errors surfaced by `match_pattern`: a compile error from
`tokenize_pattern`, or a panic raised during matching. -/
inductive MatchErr where
  | compileErr (e : CompileError)
  | panicErr (p : Panic)
deriving DecidableEq, Repr

/-- UTF-8 byte length of a codepoint list; models Rust `str::len()`. -/
def utf8Len (s : List Char) : Nat := (s.map Char.utf8Size).sum

/-- Models the Rust byte-slice `&text[i..]`: drops `i` bytes.  Returns
an error (panic) when `i` is past the end or not a character boundary. -/
def byteDrop : Nat → List Char → Except Panic (List Char)
  | 0, s => .ok s
  | _ + 1, [] => .error .strSlice
  | i + 1, c :: rest =>
    if c.utf8Size ≤ i + 1 then byteDrop (i + 1 - c.utf8Size) rest
    else .error .strSlice

theorem byteDrop_length_le : ∀ (i : Nat) (s r : List Char),
    byteDrop i s = .ok r → r.length ≤ s.length := by
  intro i s
  induction s generalizing i with
  | nil =>
    intro r h
    cases i with
    | zero => simp [byteDrop] at h; simp [h]
    | succ j => simp [byteDrop] at h
  | cons c rest ih =>
    intro r h
    cases i with
    | zero =>
      simp [byteDrop] at h
      simp [h]
    | succ j =>
      simp only [byteDrop] at h
      split at h
      · exact Nat.le_trans (ih _ _ h) (Nat.le_succ _)
      · exact absurd h (by simp)

theorem byteDrop_succ_length_lt : ∀ (j : Nat) (s r : List Char),
    byteDrop (j + 1) s = .ok r → r.length < s.length := by
  intro j s r h
  cases s with
  | nil => simp [byteDrop] at h
  | cons c rest =>
    simp only [byteDrop] at h
    split at h
    · exact Nat.lt_of_le_of_lt (byteDrop_length_le _ _ _ h) (Nat.lt_succ_self _)
    · exact absurd h (by simp)

theorem byteDrop_one_length_lt (s r : List Char) (h : byteDrop 1 s = .ok r) :
    r.length < s.length :=
  byteDrop_succ_length_lt 0 s r h

/-- Models the scanning loop `while let Some(ch) = chars.next() { if ch == close
{ break; } content.push(ch); }`: returns the content before the closing
character and the remaining characters after it (everything, if the closing
character never occurs). -/
def splitAtClose (close : Char) : List Char → (List Char × List Char)
  | [] => ([], [])
  | c :: rest =>
    if c = close then ([], rest)
    else ((c :: (splitAtClose close rest).1), (splitAtClose close rest).2)

theorem splitAtClose_snd_length_le (close : Char) :
    ∀ (l : List Char), (splitAtClose close l).2.length ≤ l.length := by
  intro l
  induction l with
  | nil => simp [splitAtClose]
  | cons c rest ih =>
    by_cases h : c = close
    · simp [splitAtClose, h]
    · simp only [splitAtClose, if_neg h]
      exact Nat.le_trans ih (Nat.le_succ _)

/-- Models Rust `str::split('|')` on the alternation group content: splits on
each `|`, yielding `[""]` for an empty content string. -/
def splitOnBar : List Char → List (List Char)
  | [] => [[]]
  | c :: rest =>
    if c = '|' then [] :: splitOnBar rest
    else
      match splitOnBar rest with
      | [] => [[c]]
      | g :: gs => (c :: g) :: gs

/-- The character scan of `tokenize_pattern` (the `while let Some(c) =
chars.next()` loop).  `acc` is the token stack in reverse order (Rust pushes
to and pops from the end of its `Vec`). -/
def scan : List Char → List Token → Except CompileError (List Token)
  | [], acc => .ok acc.reverse
  | '+' :: rest, acc =>
    match acc with
    | [] => .error .DanglingQuantifier
    | last :: accTail => scan rest (.OneOrMore last :: accTail)
  | '?' :: rest, acc =>
    match acc with
    | [] => .error .DanglingQuantifier
    | last :: accTail => scan rest (.ZeroOrOne last :: accTail)
  | '.' :: rest, acc => scan rest (.Wildcard :: acc)
  | '\\' :: rest, acc =>
    match rest with
    | [] => .error .InvalidEscape
    | 'd' :: r => scan r (.Digit :: acc)
    | 'w' :: r => scan r (.Word :: acc)
    | '\\' :: r => scan r (.Literal '\\' :: acc)
    | _ :: _ => .error .InvalidEscape
  | '[' :: rest, acc =>
    if rest.head? = some '^' then
      scan (splitAtClose ']' rest.tail).2
        (.NegClass (splitAtClose ']' rest.tail).1 :: acc)
    else
      scan (splitAtClose ']' rest).2 (.Class (splitAtClose ']' rest).1 :: acc)
  | '(' :: rest, acc =>
    scan (splitAtClose ')' rest).2
      (.Alternation (splitOnBar (splitAtClose ')' rest).1) :: acc)
  | c :: rest, acc => scan rest (.Literal c :: acc)
termination_by l _ => l.length
decreasing_by
  all_goals simp_wf
  all_goals try omega
  · have h1 := splitAtClose_snd_length_le ']' rest.tail
    have h2 : rest.tail.length ≤ rest.length := by cases rest <;> simp
    omega
  · have h1 := splitAtClose_snd_length_le ']' rest
    omega
  · have h1 := splitAtClose_snd_length_le ')' rest
    omega

/-- Models `tokenize_pattern`: strips a leading `^` and a trailing `$`
(setting the anchor flags), then scans the remainder into tokens.  The
`panic!` aborts of the Rust function are modelled as typed errors. -/
def tokenize_pattern (pattern : List Char) : Except CompileError (Bool × Bool × List Token) :=
  let anchor_start : Bool := pattern.head? = some '^'
  let p1 : List Char := if pattern.head? = some '^' then pattern.tail else pattern
  let anchor_end : Bool := p1.getLast? = some '$'
  let p2 : List Char := if p1.getLast? = some '$' then p1.dropLast else p1
  match scan p2 [] with
  | .error e => .error e
  | .ok tokens => .ok (anchor_start, anchor_end, tokens)

/-- Models `matchone`: the per-character membership test.  The catch-all
arm models the `panic!("Quantifier token should be handled in matchhere")`. -/
def matchone (next_char : Char) (token : Token) : Except Panic Bool :=
  match token with
  | .Literal c => .ok (next_char == c)
  | .Digit => .ok next_char.isDigit
  | .Word => .ok (next_char.isAlphanum || next_char == '_')
  | .Wildcard => .ok (next_char != '\n')
  | .Class s => .ok (s.any (fun c => next_char == c))
  | .NegClass s => .ok (s.all (fun c => next_char != c))
  | _ => .error .quantInMatchone

mutual

/-- Models `matchhere`: the recursive matching step over the remaining
subject and remaining tokens. -/
def matchhere : List Char → List Token → Bool → Except Panic Bool
  | text, [], anchor_end => .ok (!anchor_end || text.isEmpty)
  | text, t :: rest, anchor_end =>
    match t with
    | .OneOrMore inner => matchoneormore text inner rest anchor_end
    | .ZeroOrOne inner =>
      match text.head? with
      | none => matchhere text rest anchor_end
      | some c =>
        match matchone c inner with
        | .error e => .error e
        | .ok true =>
          match hbd : byteDrop 1 text with
          | .error e => .error e
          | .ok r =>
            match matchhere r rest anchor_end with
            | .error e => .error e
            | .ok true => .ok true
            | .ok false => matchhere text rest anchor_end
        | .ok false => matchhere text rest anchor_end
    | .Alternation options => altLoop options text rest anchor_end
    | _ =>
      match text.head? with
      | none => .ok false
      | some c =>
        match matchone c t with
        | .error e => .error e
        | .ok true =>
          match hbd : byteDrop 1 text with
          | .error e => .error e
          | .ok r => matchhere r rest anchor_end
        | .ok false => .ok false
termination_by text tokens _ => (text.length, tokens.length, 0, 0)
decreasing_by
  all_goals simp_wf
  all_goals
    first
    | exact Prod.Lex.left _ _ (byteDrop_one_length_lt _ _ hbd)
    | (apply Prod.Lex.right; exact Prod.Lex.left _ _ (Nat.lt_succ_self _))

/-- Models `matchoneormore`: the mandatory first-character test followed by
the split-offset loop (`oomLoop`).  `tokens` is the `&tokens[1..]` slice that
`matchhere` passes in, i.e. the tokens after the quantifier. -/
def matchoneormore (text : List Char) (inner : Token) (tokens : List Token)
    (anchor_end : Bool) : Except Panic Bool :=
  match text.head? with
  | none => .ok false
  | some c =>
    match matchone c inner with
    | .error e => .error e
    | .ok false => .ok false
    | .ok true => oomLoop 0 text tokens anchor_end
termination_by (text.length, tokens.length, 2, 0)
decreasing_by
  all_goals simp_wf
  all_goals
    (apply Prod.Lex.right; apply Prod.Lex.right;
     exact Prod.Lex.left _ _ (by omega))

/-- Models the loop `for i in 1..text.len()` inside `matchoneormore`; the
loop index is `j + 1`.  Each iteration slices `&text[i..]` (a byte slice)
and `&tokens[1..]` — the latter panics when `tokens` is empty, and otherwise
drops one further token beyond the quantifier. -/
def oomLoop (j : Nat) (text : List Char) (tokens : List Token)
    (anchor_end : Bool) : Except Panic Bool :=
  if j + 1 < utf8Len text then
    match hbd : byteDrop (j + 1) text with
    | .error e => .error e
    | .ok r =>
      if tokens.isEmpty then .error .tokenSlice
      else
        match matchhere r tokens.tail anchor_end with
        | .error e => .error e
        | .ok true => .ok true
        | .ok false => oomLoop (j + 1) text tokens anchor_end
  else .ok false
termination_by (text.length, tokens.length, 1, utf8Len text - j)
decreasing_by
  all_goals simp_wf
  all_goals
    first
    | exact Prod.Lex.left _ _ (byteDrop_succ_length_lt _ _ _ hbd)
    | (apply Prod.Lex.right; apply Prod.Lex.right; apply Prod.Lex.right; omega)

/-- Models the option loop in `matchhere`'s `Alternation` arm: try each
literal option in order; on a prefix match, recurse on the subject past the
option against the tokens after the alternation. -/
def altLoop (options : List (List Char)) (text : List Char)
    (tokens : List Token) (anchor_end : Bool) : Except Panic Bool :=
  match options with
  | [] => .ok false
  | opt :: more =>
    if opt.isPrefixOf text then
      match hbd : byteDrop (utf8Len opt) text with
      | .error e => .error e
      | .ok r =>
        match matchhere r tokens anchor_end with
        | .error e => .error e
        | .ok true => .ok true
        | .ok false => altLoop more text tokens anchor_end
    else altLoop more text tokens anchor_end
termination_by (text.length, tokens.length, 1, options.length)
decreasing_by
  all_goals simp_wf
  all_goals
    first
    | (apply Prod.Lex.right; apply Prod.Lex.right; apply Prod.Lex.right; omega)
    | (rcases Nat.lt_or_ge r.length text.length with hlt | hge
       · exact Prod.Lex.left _ _ hlt
       · have hle := byteDrop_length_le _ _ _ hbd
         have heq : r.length = text.length := Nat.le_antisymm hle hge
         rw [heq]
         apply Prod.Lex.right; apply Prod.Lex.right
         exact Prod.Lex.left _ _ (by omega))

end

/-- Models the loop `for i in 0..text.len()` in `match_pattern`, given the
list of byte offsets to try (in increasing order). -/
def searchLoop : List Nat → List Char → List Token → Bool → Except Panic Bool
  | [], _, _, _ => .ok false
  | i :: is, text, tokens, anchor_end =>
    match byteDrop i text with
    | .error e => .error e
    | .ok r =>
      match matchhere r tokens anchor_end with
      | .error e => .error e
      | .ok true => .ok true
      | .ok false => searchLoop is text tokens anchor_end

/-- Models `match_pattern`: compile the pattern, then either match only at
offset 0 (anchored) or search every byte offset `0..text.len()` (exclusive). -/
def match_pattern (text : List Char) (pattern : List Char) : Except MatchErr Bool :=
  match tokenize_pattern pattern with
  | .error e => .error (.compileErr e)
  | .ok (anchor_start, anchor_end, tokens) =>
    if anchor_start then
      match matchhere text tokens anchor_end with
      | .error p => .error (.panicErr p)
      | .ok b => .ok b
    else
      match searchLoop (List.range (utf8Len text)) text tokens anchor_end with
      | .error p => .error (.panicErr p)
      | .ok b => .ok b

/-- C1: the spec claims matching is total (never an error outcome) for every
pattern accepted by the compiler and every subject.  The code violates this:
the pattern `a+` compiles successfully, but matching it against the subject
`aa` reaches `matchoneormore`, whose loop body evaluates `&tokens[1..]` on an
empty token slice and panics. -/
theorem c1_matching_not_total :
    tokenize_pattern ['a', '+'] = .ok (false, false, [.OneOrMore (.Literal 'a')]) ∧
    match_pattern ['a', 'a'] ['a', '+'] = .error (.panicErr .tokenSlice) := by
  constructor
  · simp [tokenize_pattern, scan]
  · simp [match_pattern, tokenize_pattern, scan, searchLoop, matchhere, matchone,
      matchoneormore, oomLoop, altLoop, byteDrop, utf8Len, List.range_succ,
      Char.utf8Size]

/-- C2: the spec claims that with the compiled pattern of `a+`, matching
returns false on `""`, true on `"a"` and true on `"aaa"`.  The code agrees
only on the empty subject: it returns false on `"a"` (the internal split
loop `for i in 1..text.len()` never tries the split at the end of the
subject), and it panics on `"aaa"` (`&tokens[1..]` on an empty slice). -/
theorem c2_aplus_examples_diverge :
    match_pattern [] ['a', '+'] = .ok false ∧
    match_pattern ['a'] ['a', '+'] = .ok false ∧
    match_pattern ['a', 'a', 'a'] ['a', '+'] = .error (.panicErr .tokenSlice) := by
  refine ⟨?_, ?_, ?_⟩ <;>
    simp [match_pattern, tokenize_pattern, scan, searchLoop, matchhere, matchone,
      matchoneormore, oomLoop, altLoop, byteDrop, utf8Len, List.range_succ,
      Char.utf8Size]

/-- C3: the spec claims the `OneOrMore` split loop retries `matchHere`
against exactly the tokens after the quantifier, with no token skipped.
The code slices `&tokens[1..]` a second time inside `matchoneormore`, so the
token immediately after the quantifier is dropped: `a+b` compiled to
`[OneOrMore(Literal a), Literal b]` accepts the subject `aX` even though the
remainder `X` does not match the token list `[Literal b]` that follows the
quantifier. -/
theorem c3_token_after_quantifier_skipped :
    tokenize_pattern ['a', '+', 'b'] =
      .ok (false, false, [.OneOrMore (.Literal 'a'), .Literal 'b']) ∧
    matchhere ['X'] [.Literal 'b'] false = .ok false ∧
    match_pattern ['a', 'X'] ['a', '+', 'b'] = .ok true := by
  refine ⟨?_, ?_, ?_⟩ <;>
    simp [match_pattern, tokenize_pattern, scan, searchLoop, matchhere, matchone,
      matchoneormore, oomLoop, altLoop, byteDrop, utf8Len, List.range_succ,
      Char.utf8Size]

/-- C4: the spec claims the unanchored search tries every start offset from 0
through the subject length inclusive (length + 1 candidates).  The code loops
`for i in 0..text.len()`, excluding the offset at the end of the subject: on
the empty subject the empty pattern is never attempted at offset 0 and the
search returns false, even though `matchhere` at that offset succeeds. -/
theorem c4_final_offset_never_tried :
    tokenize_pattern [] = .ok (false, false, []) ∧
    matchhere [] [] false = .ok true ∧
    match_pattern [] [] = .ok false := by
  refine ⟨?_, ?_, ?_⟩ <;>
    simp [match_pattern, tokenize_pattern, scan, searchLoop, matchhere, utf8Len]

theorem scan_plus_head (xs : List Char) :
    scan ('+' :: xs) [] = .error .DanglingQuantifier := by
  simp [scan]

theorem scan_question_head (xs : List Char) :
    scan ('?' :: xs) [] = .error .DanglingQuantifier := by
  simp [scan]

theorem tokenize_quant_head (q : Char) (rest : List Char)
    (hq1 : q ≠ '^') (hq2 : q ≠ '$')
    (hscan : ∀ xs : List Char, scan (q :: xs) [] = .error .DanglingQuantifier) :
    tokenize_pattern (q :: rest) = .error .DanglingQuantifier := by
  by_cases hd : (q :: rest).getLast? = some '$'
  · have hrest : rest ≠ [] := by
      intro h; subst h
      simp only [List.getLast?_singleton, Option.some.injEq] at hd
      exact hq2 hd
    simp [tokenize_pattern, hq1, hd, List.dropLast_cons_of_ne_nil hrest, hscan]
  · simp [tokenize_pattern, hq1, hd, hscan]

/-- C5: compilation fails with `DanglingQuantifier` exactly when `+` or `?`
has no previously emitted token to wrap, and with `InvalidEscape` exactly
when a backslash is followed by a character other than `d`, `w`, `\`, or is
the pattern's last character.  The Rust code signals these conditions by
`panic!`, modelled here as the typed error values of `CompileError`; no
partial compiled pattern is produced.  Proved: every pattern starting with
`+` or `?` (after anchor stripping nothing precedes them) fails with
`DanglingQuantifier`, including `+abc` and `?x`; a backslash followed by any
character other than `d`/`w`/`\` fails with `InvalidEscape`, as does a
trailing backslash; and `a+`, with a token to wrap, compiles. -/
theorem c5_compile_errors :
    (∀ rest : List Char, tokenize_pattern ('+' :: rest) = .error .DanglingQuantifier) ∧
    (∀ rest : List Char, tokenize_pattern ('?' :: rest) = .error .DanglingQuantifier) ∧
    (∀ c : Char, c ≠ 'd' → c ≠ 'w' → c ≠ '\\' →
      tokenize_pattern ['\\', c] = .error .InvalidEscape) ∧
    tokenize_pattern ['\\'] = .error .InvalidEscape ∧
    tokenize_pattern ['\\', 'z'] = .error .InvalidEscape ∧
    tokenize_pattern ['a', '+'] = .ok (false, false, [.OneOrMore (.Literal 'a')]) := by
  refine ⟨?_, ?_, ?_, ?_, ?_, ?_⟩
  · intro rest
    exact tokenize_quant_head '+' rest (by decide) (by decide) scan_plus_head
  · intro rest
    exact tokenize_quant_head '?' rest (by decide) (by decide) scan_question_head
  · intro c hd hw hb
    by_cases hdollar : c = '$'
    · subst hdollar
      simp [tokenize_pattern, scan]
    · have h1 : (['\\', c].getLast? = some '$') = False := by
        have : ['\\', c].getLast? = some c := by
          rw [List.getLast?_cons_cons, List.getLast?_singleton]
        simp [this, hdollar]
      have h2 : (['\\', c].head? = some '^') = False := by simp
      simp only [tokenize_pattern, h1, h2, if_false]
      simp only [scan]
  · simp [tokenize_pattern, scan]
  · simp [tokenize_pattern, scan]
  · simp [tokenize_pattern, scan]

/-- C5 witness: the general escape clause applied at the concrete bad escape
character `q`. -/
theorem c5_compile_errors_witness :
    tokenize_pattern ['\\', 'q'] = .error .InvalidEscape :=
  c5_compile_errors.2.2.1 'q' (by decide) (by decide) (by decide)

/-- C6: the spec claims the subject is addressed by codepoint position and
that matching is well defined on non-ASCII subjects.  The code slices the
subject by byte offsets (`&text[i..]`, `&text[1..]`, `for i in 0..text.len()`
over the byte length): matching the wildcard pattern `.` against the
two-byte subject `é` slices at byte offset 1, inside the character, and
panics. -/
theorem c6_byte_addressing_panics_on_multibyte :
    utf8Len ['é'] = 2 ∧
    match_pattern ['é'] ['.'] = .error (.panicErr .strSlice) := by
  constructor
  · simp [utf8Len, Char.utf8Size]
  · simp [match_pattern, tokenize_pattern, scan, searchLoop, matchhere, matchone,
      matchoneormore, oomLoop, altLoop, byteDrop, utf8Len, List.range_succ,
      Char.utf8Size]

/-- C8: compiling `^$` yields both anchors set and an empty token sequence,
and matching that compiled pattern returns true exactly on the empty
subject. -/
theorem c8_caret_dollar_empty_pattern :
    tokenize_pattern ['^', '$'] = .ok (true, true, []) ∧
    match_pattern [] ['^', '$'] = .ok true ∧
    ∀ t : List Char, t ≠ [] → match_pattern t ['^', '$'] = .ok false := by
  refine ⟨?_, ?_, ?_⟩
  · simp [tokenize_pattern, scan]
  · simp [match_pattern, tokenize_pattern, scan, matchhere]
  · intro t ht
    have htok : tokenize_pattern ['^', '$'] = .ok (true, true, []) := by
      simp [tokenize_pattern, scan]
    cases t with
    | nil => exact absurd rfl ht
    | cons c cs => simp [match_pattern, htok, matchhere]

/-- C8 witness: the nonempty-subject clause applied to the subject `x`. -/
theorem c8_caret_dollar_empty_pattern_witness :
    (['x'] ≠ ([] : List Char)) ∧ match_pattern ['x'] ['^', '$'] = .ok false :=
  ⟨by decide, c8_caret_dollar_empty_pattern.2.2 ['x'] (by decide)⟩

/-- C9: whenever compilation yields `anchor_start = false`, the unanchored
search loop `for i in 0..text.len()` runs zero iterations on the empty
subject, so `isMatch` returns false regardless of the token sequence; with
`anchor_start = true` the match is still attempted at offset 0, so the empty
subject can match (e.g. the pattern `^`). -/
theorem c9_empty_subject_unanchored :
    (∀ (p : List Char) (ae : Bool) (toks : List Token),
      tokenize_pattern p = .ok (false, ae, toks) → match_pattern [] p = .ok false) ∧
    (∀ (p : List Char) (ae : Bool) (toks : List Token) (b : Bool),
      tokenize_pattern p = .ok (true, ae, toks) → matchhere [] toks ae = .ok b →
      match_pattern [] p = .ok b) ∧
    match_pattern [] ['^'] = .ok true := by
  refine ⟨?_, ?_, ?_⟩
  · intro p ae toks h
    simp [match_pattern, h, utf8Len, searchLoop]
  · intro p ae toks b h hm
    simp [match_pattern, h, hm]
  · simp [match_pattern, tokenize_pattern, scan, matchhere, utf8Len]

/-- C9 witness: the unanchored clause applied to the pattern `a` (which
compiles without anchors) on the empty subject. -/
theorem c9_empty_subject_unanchored_witness :
    tokenize_pattern ['a'] = .ok (false, false, [.Literal 'a']) ∧
    match_pattern [] ['a'] = .ok false :=
  ⟨by simp [tokenize_pattern, scan],
   c9_empty_subject_unanchored.1 ['a'] false [.Literal 'a']
     (by simp [tokenize_pattern, scan])⟩

/-- C10: an `Alternation` whose option list contains the empty string (as
compiled from `(a|)` or `()`) succeeds, consuming zero characters, whenever
the tokens after the alternation match the current subject remainder: if the
alternation step completes with a boolean at all, that boolean is true. -/
theorem c10_empty_alternation_option :
    (∀ (opts : List (List Char)) (text : List Char) (rest : List Token) (ae : Bool),
      matchhere text (.Alternation opts :: rest) ae = altLoop opts text rest ae) ∧
    (∀ (opts : List (List Char)) (text : List Char) (rest : List Token)
      (ae : Bool) (b : Bool),
      ([] : List Char) ∈ opts → matchhere text rest ae = .ok true →
      altLoop opts text rest ae = .ok b → b = true) ∧
    tokenize_pattern ['(', 'a', '|', ')'] =
      .ok (false, false, [.Alternation [['a'], []]]) ∧
    tokenize_pattern ['(', ')'] = .ok (false, false, [.Alternation [[]]]) := by
  refine ⟨?_, ?_, ?_, ?_⟩
  · intro opts text rest ae
    simp [matchhere]
  · intro opts
    induction opts with
    | nil =>
      intro text rest ae b hmem htrue halt
      exact absurd hmem (List.not_mem_nil _)
    | cons o more ih =>
      intro text rest ae b hmem htrue halt
      simp only [altLoop] at halt
      by_cases hpre : o.isPrefixOf text = true
      · rw [if_pos hpre] at halt
        split at halt
        · exact absurd halt (by simp)
        · split at halt
          · exact absurd halt (by simp)
          · exact (by simpa using halt : true = b).symm
          · rcases List.mem_cons.mp hmem with ho | ho
            · subst ho
              simp_all [utf8Len, byteDrop]
            · exact ih text rest ae b ho htrue halt
      · rw [if_neg hpre] at halt
        rcases List.mem_cons.mp hmem with ho | ho
        · subst ho
          simp [List.isPrefixOf] at hpre
        · exact ih text rest ae b ho htrue halt
  · simp [tokenize_pattern, scan, splitAtClose, splitOnBar]
  · simp [tokenize_pattern, scan, splitAtClose, splitOnBar]

/-- C10 witness: the empty option placed in the options of `(a|)`, on the
empty subject with no tokens after the alternation. -/
theorem c10_empty_alternation_option_witness :
    ([] : List Char) ∈ [['a'], ([] : List Char)] ∧ (true = true) :=
  ⟨by simp,
   c10_empty_alternation_option.2.1 [['a'], []] [] [] false true (by simp)
     (by simp [matchhere])
     (by simp [altLoop, List.isPrefixOf, utf8Len, byteDrop, matchhere])⟩

/-- C7: the spec claims the fatal-internal-error branch of `matchone` is
unreachable from the public interface.  The compiler accepts the pattern
`a++`, wrapping a quantifier in a quantifier; matching it against `a` makes
`matchoneormore` call `matchone` directly on the inner `OneOrMore` token,
reaching the `panic!` branch. -/
theorem c7_matchone_panic_reachable :
    tokenize_pattern ['a', '+', '+'] =
      .ok (false, false, [.OneOrMore (.OneOrMore (.Literal 'a'))]) ∧
    match_pattern ['a'] ['a', '+', '+'] = .error (.panicErr .quantInMatchone) := by
  constructor
  · simp [tokenize_pattern, scan]
  · simp [match_pattern, tokenize_pattern, scan, searchLoop, matchhere, matchone,
      matchoneormore, oomLoop, altLoop, byteDrop, utf8Len, List.range_succ,
      Char.utf8Size]
